import Mathlib

/-!
Shallow embedding of the pokemon resource server (`src/index.js`).

The server state is modelled as the document store (a list of records, in
insertion order) together with the set of files present in the single
`assets/pokemons` directory (multer writes its temporary uploads into that
same directory, under names `temp_<timestamp><ext>`).

JavaScript string primitives used by the handlers (`parseInt`, `trim`,
`split`, `includes`, `path.extname`) are given executable structural
models below; `Option Int` models a JS number that may be `NaN`
(`none` = `NaN`).
-/

namespace PokeApi

/-- `base` subdocument of a record: the six stats (source keys `HP`,
`Attack`, `Defense`, `SpecialAttack`, `SpecialDefense`, `Speed`). -/
structure BaseStats where
  HP : Int
  Attack : Int
  Defense : Int
  SpecialAttack : Int
  SpecialDefense : Int
  Speed : Int
  deriving Repr, DecidableEq

/-- `name` subdocument: the French display name (`name.french`). -/
structure PName where
  french : String
  deriving Repr, DecidableEq

/-- A persisted creature record, as stored by mongoose. -/
structure Pokemon where
  id : Int
  name : PName
  type : List String
  base : BaseStats
  image : String
  deriving Repr, DecidableEq

/-- Whole observable server state: the record store plus the filenames
present in the `assets/pokemons` directory. -/
structure ServerState where
  store : List Pokemon
  fs : List String
  deriving Repr, DecidableEq

/-- Add a filename to the directory (idempotent: the directory is a set of
names; `fs.renameSync` onto an existing name overwrites it). -/
def fsAdd (fs : List String) (f : String) : List String :=
  if f ∈ fs then fs else fs ++ [f]

/-- Remove a filename from the directory if present; models the guarded
`if (fs.existsSync(p)) fs.unlinkSync(p)` pattern as well as `renameSync`'s
removal of its source. -/
def fsRemove (fs : List String) (f : String) : List String :=
  fs.filter (fun g => g ≠ f)

/-- Character-level whitespace test used by the JS `trim` model. -/
def isSpaceChar (c : Char) : Bool := c.isWhitespace

/-- JS `String.prototype.trim` on the character list level. -/
def trimL (cs : List Char) : List Char :=
  ((cs.dropWhile isSpaceChar).reverse.dropWhile isSpaceChar).reverse

/-- JS `String.prototype.trim`. -/
def jsTrim (s : String) : String := String.mk (trimL s.data)

/-- Does `s` start with pattern `pat` (exact characters)? -/
def strStarts : List Char → List Char → Bool
  | [], _ => true
  | _ :: _, [] => false
  | p :: ps, c :: cs => p == c && strStarts ps cs

/-- The remainder of `s` after the first occurrence of the (non-empty)
pattern `pat`, or `none` when `pat` does not occur: the spine of JS
`includes`/`split` for a fixed separator. -/
def afterFirst (pat : List Char) : List Char → Option (List Char)
  | [] => if pat.isEmpty then some [] else none
  | c :: cs =>
    if strStarts pat (c :: cs) then some (List.drop pat.length (c :: cs))
    else afterFirst pat cs

/-- The characters of `s` up to (excluding) the next occurrence of `pat`. -/
def upToNext (pat : List Char) : List Char → List Char
  | [] => []
  | c :: cs => if strStarts pat (c :: cs) then [] else c :: upToNext pat cs

/-- JS `s.includes(pat)` for a non-empty pattern. -/
def jsIncludes (s pat : String) : Bool := (afterFirst pat.data s.data).isSome

/-- JS `s.split(pat)[1]` for a non-empty pattern: the segment between the
first occurrence of `pat` and the following one (or the end), `none` when
`pat` does not occur (JS would give `undefined`). -/
def splitSecond (s pat : String) : Option String :=
  (afterFirst pat.data s.data).map (fun rest => String.mk (upToNext pat.data rest))

/-- JS `s.split(sep)` for a single-character separator (used for
`raw.type.split(',')`). -/
def splitOnChar (sep : Char) : List Char → List (List Char)
  | [] => [[]]
  | c :: cs =>
    if c = sep then [] :: splitOnChar sep cs
    else
      match splitOnChar sep cs with
      | [] => [[c]]
      | g :: gs => (c :: g) :: gs

/-- Numeric value of a digit string. -/
def digitsVal (ds : List Char) : Nat :=
  ds.foldl (fun a c => a * 10 + (c.toNat - ('0').toNat)) 0

/-- JS `parseInt` on a string (decimal path: skip leading whitespace,
optional sign, longest leading digit run; `none` models `NaN` when no
digit is found). The hexadecimal `0x` prefix of radix-less `parseInt` is
not modelled; no handler input in the claims uses it. -/
def jsParseInt (s : String) : Option Int :=
  let cs := s.data.dropWhile isSpaceChar
  let signed : Int × List Char :=
    match cs with
    | '-' :: rest => (-1, rest)
    | '+' :: rest => (1, rest)
    | _ => (1, cs)
  let digits := signed.2.takeWhile Char.isDigit
  if digits.isEmpty then none
  else some (signed.1 * (digitsVal digits : Nat))

/-- JS `path.extname` for a plain basename: the suffix starting at the
last `.`, empty for a dotless name or a leading-dot (hidden) file. -/
def extAux : List Char → Option (List Char)
  | [] => none
  | '.' :: cs =>
    match extAux cs with
    | some e => some e
    | none => some cs
  | _ :: cs => extAux cs

/-- JS `path.extname` (see `extAux`). -/
def extname (s : String) : String :=
  match s.data with
  | [] => ""
  | c :: cs =>
    match extAux (if c = '.' then cs else c :: cs) with
    | some e => String.mk ('.' :: e)
    | none => ""

/-- Anchored case-insensitive match of a regex pattern at the head of a
string, for the fragment of patterns whose characters are literals or the
`.` wildcard. This models MongoDB's `$regex` with option `i`
(the `'name.french': { $regex: query, $options: 'i' }` filter of
`GET /pokemons/search`) on that fragment; other metacharacters are not
modelled and no theorem below evaluates the matcher on them. -/
def patMatchAt : List Char → List Char → Bool
  | [], _ => true
  | _ :: _, [] => false
  | p :: ps, c :: cs => (p == '.' || p.toLower == c.toLower) && patMatchAt ps cs

/-- Unanchored case-insensitive regex match (MongoDB `$regex` matches when
the pattern matches at any position of the subject). -/
def patMatchIn (pat : List Char) : List Char → Bool
  | [] => patMatchAt pat []
  | c :: cs => patMatchAt pat (c :: cs) || patMatchIn pat cs

/-- Case-insensitive regex match on strings (dot-literal fragment). -/
def regexMatchCI (pat s : String) : Bool := patMatchIn pat.data s.data

/-- Anchored case-insensitive literal comparison: does `s` begin with the
characters of `sub`, ignoring case? Written to the spec's words for the
refinement comparison with `patMatchAt`. -/
def substrAt : List Char → List Char → Bool
  | [], _ => true
  | _ :: _, [] => false
  | p :: ps, c :: cs => p.toLower == c.toLower && substrAt ps cs

/-- Case-insensitive substring occurrence on character lists. -/
def substrIn (sub : List Char) : List Char → Bool
  | [] => substrAt sub []
  | c :: cs => substrAt sub (c :: cs) || substrIn sub cs

/-- The spec's search predicate, written to its words: `s` contains `sub`
as a case-insensitive substring. -/
def containsCI (s sub : String) : Bool := substrIn sub.data s.data

/-- The characters MongoDB/PCRE treats specially in a pattern; a query
avoiding all of them (the regex-literal fragment) is matched literally. -/
def regexMetaChars : List Char :=
  ['.', '^', '$', '*', '+', '?', '(', ')', '[', ']', '{', '}', '|', '\\']

/-- A query whose characters are all regex-literal. -/
def noMeta (s : String) : Bool := s.data.all (fun c => ¬ c ∈ regexMetaChars)

/-- Uploaded `image` file as seen by the handler: `req.file.path`'s
basename (`temp_<timestamp><ext>`, chosen by the multer storage engine at
line 28) and `req.file.originalname`. -/
structure UploadedFile where
  tempName : String
  origName : String
  deriving Repr, DecidableEq

/-- Multer's work before a handler with `upload.single('image')` runs: the
uploaded file, when present, is written into `assets/pokemons` under its
temporary name. -/
def multerSave : Option UploadedFile → ServerState → ServerState
  | none, st => st
  | some f, st => { st with fs := fsAdd st.fs f.tempName }

/-- Base URL under which `assets/pokemons` is served. -/
def imageUrlBase : String := "http://localhost:3000/assets/pokemons/"

/-- Placeholder `image` value for a create without an upload (line 116). -/
def defaultImage : String := "http://localhost:3000/assets/pokemons/default.png"

/-- Path marker tested by the delete handler (line 137). -/
def assetMarker : String := "/assets/pokemons/"

/-- The document with the greatest `id`, i.e.
`pokemon.findOne().sort({ id: -1 })` (line 105); `none` on an empty store. -/
def findMaxIdDoc : List Pokemon → Option Pokemon
  | [] => none
  | p :: ps =>
    match findMaxIdDoc ps with
    | none => some p
    | some q => if q.id > p.id then some q else some p

/-- Identity allocation of the create handler (line 106):
`lastPokemon ? lastPokemon.id + 1 : 1`. -/
def nextId (store : List Pokemon) : Int :=
  match findMaxIdDoc store with
  | none => 1
  | some q => q.id + 1

/-- JS truthiness filter on a form field: a missing field and the empty
string are falsy, every other string is truthy. -/
def truthy : Option String → Option String
  | none => none
  | some s => if s = "" then none else some s

/-- Field map of a multipart body as the handlers read it. Multipart form
values are strings; the `raw.name?.french` / `raw.name` fallbacks of
line 91 only arise for JSON bodies and are modelled as absent. -/
structure CreateInput where
  nameFrench : Option String
  type : Option String
  baseHP : Option String
  baseAttack : Option String
  baseDefense : Option String
  baseSpecialAttack : Option String
  baseSpecialDefense : Option String
  baseSpeed : Option String
  file : Option UploadedFile
  deriving Repr, DecidableEq

/-- Line 93: a string `type` field is split on commas and trimmed; a
missing one becomes `[]`. -/
def normalizeType : Option String → List String
  | none => []
  | some s => (splitOnChar ',' s.data).map (fun cs => String.mk (trimL cs))

/-- Lines 95-100: `parseInt(raw[k] || 0)` — a missing or empty field
falls back to the number `0` (parsed as `"0"`); any other string goes
through `parseInt` and may be `NaN` (`none`). -/
def parseStatCreate : Option String → Option Int
  | none => some 0
  | some s => if s = "" then some 0 else jsParseInt s

/-- The record assembled by the create handler before validation: `name`
and the stats may still be `undefined`/`NaN`. -/
structure PokemonDoc where
  id : Int
  nameFrench : Option String
  type : List String
  HP : Option Int
  Attack : Option Int
  Defense : Option Int
  SpecialAttack : Option Int
  SpecialDefense : Option Int
  Speed : Option Int
  image : String
  deriving Repr, DecidableEq

/-- Modelled from the spec: `src/schema/pokemon.js` is not under `src/`,
so mongoose's acceptance of a new document follows the spec's data model —
`localizedName … required` makes `save` reject a document with an
undefined name, and the stats being numbers makes the Number cast reject
`NaN`. A document passing both is stored as given (the spec assigns
non-negativity to the input coercion, not to store-side validation, so no
range check is modelled). -/
def docToPokemon (d : PokemonDoc) : Option Pokemon :=
  match d.nameFrench, d.HP, d.Attack, d.Defense,
        d.SpecialAttack, d.SpecialDefense, d.Speed with
  | some n, some hp, some atk, some df, some satk, some sdf, some spd =>
    some { id := d.id, name := { french := n }, type := d.type,
           base := { HP := hp, Attack := atk, Defense := df,
                     SpecialAttack := satk, SpecialDefense := sdf, Speed := spd },
           image := d.image }
  | _, _, _, _, _, _, _ => none

/-- Outcome of `POST /pokemons`: 201 with the saved record, or 400. -/
inductive CreateResult where
  | created (p : Pokemon)
  | clientError
  deriving Repr, DecidableEq

/-- Lines 88-102 (with the identity of line 106 and the image of lines
109-117 substituted in): the `newPokemonData` object handed to `save`. -/
def mkDoc (input : CreateInput) (newId : Int) (img : String) : PokemonDoc :=
  { id := newId
    nameFrench := truthy input.nameFrench
    type := normalizeType input.type
    HP := parseStatCreate input.baseHP
    Attack := parseStatCreate input.baseAttack
    Defense := parseStatCreate input.baseDefense
    SpecialAttack := parseStatCreate input.baseSpecialAttack
    SpecialDefense := parseStatCreate input.baseSpecialDefense
    Speed := parseStatCreate input.baseSpeed
    image := img }

/-- `POST /pokemons` (lines 85-126), multer step included: build the
record from the form fields, allocate the identity from the current
maximum, move the temp upload to `<id><ext>` (or use the placeholder
URL), then save; a failed save is caught and the temp file deleted if it
still exists. -/
def postPokemons (input : CreateInput) (st : ServerState) : CreateResult × ServerState :=
  let st0 := multerSave input.file st
  let newId := nextId st0.store
  match input.file with
  | some f =>
    let finalName := toString newId ++ extname f.origName
    let st1 : ServerState := { st0 with fs := fsAdd (fsRemove st0.fs f.tempName) finalName }
    match docToPokemon (mkDoc input newId (imageUrlBase ++ finalName)) with
    | some p => (.created p, { st1 with store := st1.store ++ [p] })
    | none => (.clientError, { st1 with fs := fsRemove st1.fs f.tempName })
  | none =>
    match docToPokemon (mkDoc input newId defaultImage) with
    | some p => (.created p, { st0 with store := st0.store ++ [p] })
    | none => (.clientError, st0)

/-- Outcome of `DELETE /pokemons/:id`. -/
inductive DeleteResult where
  | ok
  | notFound
  deriving Repr, DecidableEq

/-- `pokemon.findOneAndDelete({ id })`: remove the first record with the
given identity. -/
def removeFirstById (pokeId : Int) : List Pokemon → List Pokemon
  | [] => []
  | p :: ps => if p.id == pokeId then ps else p :: removeFirstById pokeId ps

/-- `DELETE /pokemons/:id` (lines 129-148); `pokeId` is the already
parsed path parameter. When the record's `image` contains
`'/assets/pokemons/'` (JS `includes`, line 137), the filename after the
marker (JS `split(...)[1]`, line 138) is unlinked if it exists; then the
record is deleted. -/
def deletePokemons (pokeId : Int) (st : ServerState) : DeleteResult × ServerState :=
  match st.store.find? (fun p => p.id == pokeId) with
  | none => (.notFound, st)
  | some p =>
    let st1 : ServerState :=
      match splitSecond p.image assetMarker with
      | some filename => { st with fs := fsRemove st.fs filename }
      | none => st
    (.ok, { st1 with store := removeFirstById pokeId st1.store })

/-- Field map of a `PUT /pokemons/:id` multipart body. -/
structure UpdateInput where
  nameFrench : Option String
  type : Option String
  baseHP : Option String
  baseAttack : Option String
  baseDefense : Option String
  baseSpecialAttack : Option String
  baseSpecialDefense : Option String
  baseSpeed : Option String
  file : Option UploadedFile
  deriving Repr, DecidableEq

/-- The `$set` update document built by the update handler. A numeric
entry of `some v` means the dotted path is included with parsed value `v`
(`some none` = included as `NaN`). -/
structure UpdateSet where
  nameFrench : Option String
  HP : Option (Option Int)
  Attack : Option (Option Int)
  Defense : Option (Option Int)
  SpecialAttack : Option (Option Int)
  SpecialDefense : Option (Option Int)
  Speed : Option (Option Int)
  type : Option (List String)
  image : Option String
  deriving Repr, DecidableEq

/-- Lines 157-169: a field enters `updates` iff its raw string value is
truthy; numeric fields are then passed through `parseInt`. -/
def buildUpdates (input : UpdateInput) : UpdateSet :=
  { nameFrench := truthy input.nameFrench
    HP := (truthy input.baseHP).map jsParseInt
    Attack := (truthy input.baseAttack).map jsParseInt
    Defense := (truthy input.baseDefense).map jsParseInt
    SpecialAttack := (truthy input.baseSpecialAttack).map jsParseInt
    SpecialDefense := (truthy input.baseSpecialDefense).map jsParseInt
    Speed := (truthy input.baseSpeed).map jsParseInt
    type := (truthy input.type).map (fun s => (splitOnChar ',' s.data).map (fun cs => String.mk (trimL cs)))
    image := none }

/-- Does mongoose's Number cast accept every numeric entry of the update
set? An entry included as `NaN` makes `findOneAndUpdate` throw a
CastError before touching the store. -/
def updatesCastOk (u : UpdateSet) : Bool :=
  u.HP ≠ some none && u.Attack ≠ some none && u.Defense ≠ some none &&
  u.SpecialAttack ≠ some none && u.SpecialDefense ≠ some none && u.Speed ≠ some none

/-- Effect of `$set: updates` on one record: included dotted paths are
replaced, everything else kept. (`Option.bind id` strips the inclusion
layer; the `NaN` case never reaches this point, `updatesCastOk` having
been checked.) -/
def applyUpdateSet (u : UpdateSet) (p : Pokemon) : Pokemon :=
  { id := p.id
    name := { french := u.nameFrench.getD p.name.french }
    type := u.type.getD p.type
    base :=
      { HP := (u.HP.bind id).getD p.base.HP
        Attack := (u.Attack.bind id).getD p.base.Attack
        Defense := (u.Defense.bind id).getD p.base.Defense
        SpecialAttack := (u.SpecialAttack.bind id).getD p.base.SpecialAttack
        SpecialDefense := (u.SpecialDefense.bind id).getD p.base.SpecialDefense
        Speed := (u.Speed.bind id).getD p.base.Speed }
    image := u.image.getD p.image }

/-- Replace the first record with the given identity by `p'` (the store
side of `findOneAndUpdate`). -/
def replaceFirstById (pokeId : Int) (p' : Pokemon) : List Pokemon → List Pokemon
  | [] => []
  | p :: ps => if p.id == pokeId then p' :: ps else p :: replaceFirstById pokeId p' ps

/-- Outcome of `PUT /pokemons/:id`: 200 with the updated record
(`new: true`), 404, or 500 from the catch block. -/
inductive PutResult where
  | ok (p : Pokemon)
  | notFound
  | serverError
  deriving Repr, DecidableEq

/-- `PUT /pokemons/:id` (lines 151-185), multer step included: build the
update set from the truthy fields; when a file was uploaded, rename it to
`<pokeId><ext>` (this happens before any store access) and include the
new image URL; then `findOneAndUpdate` — a CastError (a `NaN` numeric
entry) is caught, deleting the temp file if it still exists; a missing
record yields 404 on the normal path, with no filesystem cleanup. -/
def putPokemons (input : UpdateInput) (pokeId : Int) (st : ServerState) : PutResult × ServerState :=
  let st0 := multerSave input.file st
  let u0 := buildUpdates input
  let moved : UpdateSet × ServerState :=
    match input.file with
    | some f =>
      let finalName := toString pokeId ++ extname f.origName
      ({ u0 with image := some (imageUrlBase ++ finalName) },
       { st0 with fs := fsAdd (fsRemove st0.fs f.tempName) finalName })
    | none => (u0, st0)
  let u := moved.1
  let st1 := moved.2
  if updatesCastOk u then
    match st1.store.find? (fun p => p.id == pokeId) with
    | some p =>
      let p' := applyUpdateSet u p
      (.ok p', { st1 with store := replaceFirstById pokeId p' st1.store })
    | none => (.notFound, st1)
  else
    (.serverError,
     match input.file with
     | some f => { st1 with fs := fsRemove st1.fs f.tempName }
     | none => st1)

/-- `GET /pokemons/search` (lines 56-71): blank query (after `|| ''` and
`trim`) short-circuits to `[]`; otherwise the store is filtered by the
case-insensitive `$regex` on `name.french`. -/
def searchPokemons (q : Option String) (store : List Pokemon) : List Pokemon :=
  let query := q.getD ""
  if jsTrim query = "" then []
  else store.filter (fun p => regexMatchCI query p.name.french)

/-- Line 38: `parseInt(req.query.page) || 1` — an absent parameter parses
(via `"undefined"`) to `NaN`, and both `NaN` and `0` are falsy. -/
def pageOf (param : Option String) : Int :=
  match param.bind jsParseInt with
  | none => 1
  | some n => if n = 0 then 1 else n

/-- Successful payload of `GET /pokemons`. -/
structure ListResult where
  page : Int
  totalPages : Nat
  data : List Pokemon
  deriving Repr, DecidableEq

/-- `GET /pokemons` (lines 36-53): fixed `limit = 20`,
`skip = (page - 1) * limit`, `totalPages = Math.ceil(total / limit)`.
A negative skip (reachable only through a negative `page` parameter) is
rejected by MongoDB and surfaces as the 500 branch; no claim depends on
that branch. -/
def listPokemons (param : Option String) (store : List Pokemon) : Except Unit ListResult :=
  let page := pageOf param
  let skip := (page - 1) * 20
  if skip < 0 then .error ()
  else .ok { page := page
             totalPages := (store.length + 19) / 20
             data := (store.drop skip.toNat).take 20 }

/-- Concrete stored record used by the example instantiations below. -/
def pika : Pokemon :=
  { id := 1
    name := { french := "Pikachu" }
    type := ["Electrik"]
    base := { HP := 35, Attack := 55, Defense := 40,
              SpecialAttack := 50, SpecialDefense := 50, Speed := 90 }
    image := defaultImage }

/-- A server state holding `pika` and an empty asset directory. -/
def pikaSt : ServerState := { store := [pika], fs := [] }

/-- An update request whose only form field is `base.HP` (no other field,
no uploaded file). -/
def hpOnly (v : Option String) : UpdateInput :=
  { nameFrench := none, type := none, baseHP := v, baseAttack := none,
    baseDefense := none, baseSpecialAttack := none, baseSpecialDefense := none,
    baseSpeed := none, file := none }

/-- A create request with only a name (value `v`) and optionally a file. -/
def nameOnlyCreate (v : Option String) (f : Option UploadedFile) : CreateInput :=
  { nameFrench := v, type := none, baseHP := none, baseAttack := none,
    baseDefense := none, baseSpecialAttack := none, baseSpecialDefense := none,
    baseSpeed := none, file := f }

/-- A create request with a name and an `HP` form value. -/
def nameHpCreate (n hp : String) : CreateInput :=
  { nameFrench := some n, type := none, baseHP := some hp, baseAttack := none,
    baseDefense := none, baseSpecialAttack := none, baseSpecialDefense := none,
    baseSpeed := none, file := none }

/-- An update request carrying only an uploaded file. -/
def fileOnlyUpdate (f : UploadedFile) : UpdateInput :=
  { nameFrench := none, type := none, baseHP := none, baseAttack := none,
    baseDefense := none, baseSpecialAttack := none, baseSpecialDefense := none,
    baseSpeed := none, file := some f }

/-- A store of 25 identical records for the pagination instantiation. -/
def ex25 : List Pokemon := List.replicate 25 pika

/-- The record persisted by a create carrying only the name `Pika`. -/
def createdPika : Pokemon :=
  { id := 1, name := { french := "Pika" }, type := [],
    base := { HP := 0, Attack := 0, Defense := 0, SpecialAttack := 0,
              SpecialDefense := 0, Speed := 0 },
    image := defaultImage }

/-- The record persisted by a create with name `Pika` and an uploaded
`photo.png` on the empty store. -/
def createdPikaImg : Pokemon :=
  { id := 1, name := { french := "Pika" }, type := [],
    base := { HP := 0, Attack := 0, Defense := 0, SpecialAttack := 0,
              SpecialDefense := 0, Speed := 0 },
    image := "http://localhost:3000/assets/pokemons/1.png" }

/-- The record persisted by a create with name `Pika` and HP field `-5`. -/
def createdPikaNeg : Pokemon :=
  { id := 1, name := { french := "Pika" }, type := [],
    base := { HP := -5, Attack := 0, Defense := 0, SpecialAttack := 0,
              SpecialDefense := 0, Speed := 0 },
    image := defaultImage }

theorem multerSave_store (f : Option UploadedFile) (st : ServerState) :
    (multerSave f st).store = st.store := by
  cases f <;> rfl

theorem not_mem_fsRemove (fs : List String) (f : String) : f ∉ fsRemove fs f := by
  simp [fsRemove]

theorem mem_fsAdd (fs : List String) (f : String) : f ∈ fsAdd fs f := by
  by_cases h : f ∈ fs <;> simp [fsAdd, h]

theorem truthy_none : truthy none = none := rfl

theorem findMaxIdDoc_eq_none (l : List Pokemon) : findMaxIdDoc l = none ↔ l = [] := by
  cases l with
  | nil => simp [findMaxIdDoc]
  | cons p ps =>
    constructor
    · intro h
      rw [findMaxIdDoc] at h
      cases hps : findMaxIdDoc ps with
      | none => simp [hps] at h
      | some r =>
        simp only [hps] at h
        split at h <;> exact Option.noConfusion h
    · intro h
      exact absurd h (List.cons_ne_nil p ps)

theorem findMaxIdDoc_mem (l : List Pokemon) (q : Pokemon) (h : findMaxIdDoc l = some q) :
    q ∈ l := by
  induction l generalizing q with
  | nil => simp [findMaxIdDoc] at h
  | cons p ps ih =>
    rw [findMaxIdDoc] at h
    cases hps : findMaxIdDoc ps with
    | none =>
      simp only [hps, Option.some.injEq] at h
      subst h
      exact List.mem_cons_self _ _
    | some r =>
      simp only [hps] at h
      by_cases hgt : r.id > p.id
      · rw [if_pos hgt] at h
        simp only [Option.some.injEq] at h
        subst h
        exact List.mem_cons_of_mem _ (ih _ hps)
      · rw [if_neg hgt] at h
        simp only [Option.some.injEq] at h
        subst h
        exact List.mem_cons_self _ _

theorem findMaxIdDoc_ub (l : List Pokemon) (q : Pokemon) (h : findMaxIdDoc l = some q) :
    ∀ p ∈ l, p.id ≤ q.id := by
  induction l generalizing q with
  | nil => intro p hp; simp at hp
  | cons a ps ih =>
    intro p hp
    rw [findMaxIdDoc] at h
    cases hps : findMaxIdDoc ps with
    | none =>
      simp only [hps, Option.some.injEq] at h
      subst h
      have hnil : ps = [] := (findMaxIdDoc_eq_none ps).mp hps
      subst hnil
      simp at hp
      subst hp
      exact le_refl _
    | some r =>
      simp only [hps] at h
      rcases List.mem_cons.mp hp with rfl | hmem
      · by_cases hgt : r.id > p.id
        · rw [if_pos hgt] at h
          simp only [Option.some.injEq] at h
          subst h
          omega
        · rw [if_neg hgt] at h
          simp only [Option.some.injEq] at h
          subst h
          exact le_refl _
      · have hr := ih r hps p hmem
        by_cases hgt : r.id > a.id
        · rw [if_pos hgt] at h
          simp only [Option.some.injEq] at h
          subst h
          exact hr
        · rw [if_neg hgt] at h
          simp only [Option.some.injEq] at h
          subst h
          omega

theorem nextId_of_max (l : List Pokemon) (m : Int)
    (hmem : m ∈ l.map Pokemon.id) (hub : ∀ p ∈ l, p.id ≤ m) : nextId l = m + 1 := by
  obtain ⟨r, hr, hrid⟩ := List.mem_map.mp hmem
  cases hq : findMaxIdDoc l with
  | none =>
    rw [findMaxIdDoc_eq_none] at hq
    subst hq
    simp at hr
  | some q =>
    have h1 : q.id ≤ m := hub q (findMaxIdDoc_mem l q hq)
    have h2 : m ≤ q.id := hrid ▸ findMaxIdDoc_ub l q hq r hr
    simp only [nextId, hq]
    omega

theorem docToPokemon_eq (d : PokemonDoc) (p : Pokemon) (h : docToPokemon d = some p) :
    p.id = d.id ∧ d.nameFrench = some p.name.french ∧ p.type = d.type ∧
    d.HP = some p.base.HP ∧ d.Attack = some p.base.Attack ∧
    d.Defense = some p.base.Defense ∧ d.SpecialAttack = some p.base.SpecialAttack ∧
    d.SpecialDefense = some p.base.SpecialDefense ∧ d.Speed = some p.base.Speed ∧
    p.image = d.image := by
  unfold docToPokemon at h
  split at h
  · simp only [Option.some.injEq] at h
    subst h
    simp_all
  · simp at h

theorem docToPokemon_none_HP (d : PokemonDoc) (h : d.HP = none) : docToPokemon d = none := by
  unfold docToPokemon
  split
  · simp_all
  · rfl

theorem postPokemons_created_eq (input : CreateInput) (st : ServerState) (p : Pokemon)
    (h : (postPokemons input st).1 = .created p) :
    docToPokemon (mkDoc input (nextId st.store) p.image) = some p ∧
    (postPokemons input st).2.store = st.store ++ [p] ∧
    (input.file = none → p.image = defaultImage) ∧
    (∀ f, input.file = some f →
        p.image = imageUrlBase ++ (toString (nextId st.store) ++ extname f.origName) ∧
        (toString (nextId st.store) ++ extname f.origName) ∈ (postPokemons input st).2.fs) := by
  cases hf : input.file with
  | some f =>
    simp only [postPokemons, hf, multerSave] at h ⊢
    cases hdoc : docToPokemon (mkDoc input (nextId st.store)
        (imageUrlBase ++ (toString (nextId st.store) ++ extname f.origName))) with
    | none =>
      simp only [hdoc] at h
      exact CreateResult.noConfusion h
    | some q =>
      simp only [hdoc, CreateResult.created.injEq] at h ⊢
      subst h
      have himg : q.image = imageUrlBase ++ (toString (nextId st.store) ++ extname f.origName) := by
        simpa [mkDoc] using (docToPokemon_eq _ _ hdoc).2.2.2.2.2.2.2.2.2
      refine ⟨?_, ?_, ?_, ?_⟩
      · rw [himg]
        exact hdoc
      · simp
      · intro hn
        cases hn
      · intro g hg
        simp only [Option.some.injEq] at hg
        subst hg
        exact ⟨himg, mem_fsAdd _ _⟩
  | none =>
    simp only [postPokemons, hf, multerSave] at h ⊢
    cases hdoc : docToPokemon (mkDoc input (nextId st.store) defaultImage) with
    | none =>
      simp only [hdoc] at h
      exact CreateResult.noConfusion h
    | some q =>
      simp only [hdoc, CreateResult.created.injEq] at h ⊢
      subst h
      have himg : q.image = defaultImage := by
        simpa [mkDoc] using (docToPokemon_eq _ _ hdoc).2.2.2.2.2.2.2.2.2
      refine ⟨?_, ?_, ?_, ?_⟩
      · rw [himg]
        exact hdoc
      · simp
      · intro hn
        exact himg
      · intro g hg
        cases hg

/-- C1: for every create request on a store whose current maximum
identity is `m`, the persisted and returned record's identity equals
`m + 1`, and `1` when the store is empty. -/
theorem create_identity_allocation (input : CreateInput) (st : ServerState) (p : Pokemon)
    (h : (postPokemons input st).1 = .created p) :
    (st.store = [] → p.id = 1) ∧
    (∀ m : Int, m ∈ st.store.map Pokemon.id → (∀ q ∈ st.store, q.id ≤ m) → p.id = m + 1) ∧
    (postPokemons input st).2.store = st.store ++ [p] := by
  obtain ⟨hdoc, hstore, -, -⟩ := postPokemons_created_eq input st p h
  have hid : p.id = nextId st.store := by
    have := (docToPokemon_eq _ _ hdoc).1
    simpa [mkDoc] using this
  refine ⟨?_, ?_, hstore⟩
  · intro hnil; rw [hid, hnil]; rfl
  · intro m hmem hub; rw [hid, nextId_of_max st.store m hmem hub]

/-- Witness for C1: a create on the empty store returns identity 1. -/
theorem create_identity_allocation_witness :
    (postPokemons (nameOnlyCreate (some "Pika") none) { store := [], fs := [] }).1 =
      .created createdPika ∧ createdPika.id = 1 := by
  have h : (postPokemons (nameOnlyCreate (some "Pika") none) { store := [], fs := [] }).1 =
      .created createdPika := by decide
  exact ⟨h, (create_identity_allocation _ _ _ h).1 rfl⟩

/-- C7: when a create with an uploaded image fails, the temporary
uploaded file is deleted before the 400 is surfaced — no temp file
remains in the staging directory. -/
theorem create_failure_temp_cleanup (input : CreateInput) (st : ServerState) (f : UploadedFile)
    (hf : input.file = some f)
    (herr : (postPokemons input st).1 = .clientError) :
    f.tempName ∉ ((postPokemons input st).2).fs := by
  simp only [postPokemons, hf, multerSave] at herr ⊢
  cases hdoc : docToPokemon (mkDoc input (nextId st.store)
      (imageUrlBase ++ (toString (nextId st.store) ++ extname f.origName))) with
  | some q =>
    simp only [hdoc] at herr
    exact CreateResult.noConfusion herr
  | none =>
    simp only [hdoc]
    exact not_mem_fsRemove _ _

/-- Witness for C7: a create missing the required name but carrying an
upload fails, and its temp file is gone from the resulting state. -/
theorem create_failure_temp_cleanup_witness :
    "temp_1.png" ∉
      (postPokemons (nameOnlyCreate none (some { tempName := "temp_1.png", origName := "photo.png" }))
        { store := [], fs := [] }).2.fs :=
  create_failure_temp_cleanup
    (nameOnlyCreate none (some { tempName := "temp_1.png", origName := "photo.png" }))
    { store := [], fs := [] } { tempName := "temp_1.png", origName := "photo.png" }
    rfl (by decide)

/-- C8: a create without an upload stores the placeholder URL; a create
with an upload stores a URL built from the assigned identity and the
original extension, and the asset file exists under that name. -/
theorem create_image_binding (input : CreateInput) (st : ServerState) (p : Pokemon)
    (h : (postPokemons input st).1 = .created p) :
    (input.file = none → p.image = defaultImage) ∧
    (∀ f, input.file = some f →
        p.image = imageUrlBase ++ (toString p.id ++ extname f.origName) ∧
        (toString p.id ++ extname f.origName) ∈ (postPokemons input st).2.fs) := by
  obtain ⟨hdoc, -, hnone, hsome⟩ := postPokemons_created_eq input st p h
  have hid : p.id = nextId st.store := by
    simpa [mkDoc] using (docToPokemon_eq _ _ hdoc).1
  refine ⟨hnone, ?_⟩
  intro f hf
  rw [hid]
  exact hsome f hf

/-- Witness for C8: creating `Pika` with `photo.png` on the empty store
binds the asset to `1.png` and records its URL. -/
theorem create_image_binding_witness :
    createdPikaImg.image = imageUrlBase ++ (toString createdPikaImg.id ++ extname ("photo.png")) ∧
    (toString createdPikaImg.id ++ extname ("photo.png")) ∈
      (postPokemons (nameOnlyCreate (some "Pika") (some { tempName := "temp_2.png", origName := "photo.png" }))
        { store := [], fs := [] }).2.fs := by
  have h : (postPokemons
      (nameOnlyCreate (some "Pika") (some { tempName := "temp_2.png", origName := "photo.png" }))
      { store := [], fs := [] }).1 = .created createdPikaImg := by decide
  exact (create_image_binding _ _ _ h).2 _ rfl

/-- C4 (amended): each persisted stat is exactly the JS parse of its
form field; absent or empty fields default to 0; a non-empty field goes
through `parseInt` unchanged, so a negative value is persisted as-is,
and an unparsable non-empty field yields `NaN`, which makes the create
fail with 400 instead of defaulting to 0. -/
theorem create_basestats_amended (input : CreateInput) (st : ServerState) :
    (∀ p, (postPokemons input st).1 = .created p →
        parseStatCreate input.baseHP = some p.base.HP ∧
        parseStatCreate input.baseAttack = some p.base.Attack ∧
        parseStatCreate input.baseDefense = some p.base.Defense ∧
        parseStatCreate input.baseSpecialAttack = some p.base.SpecialAttack ∧
        parseStatCreate input.baseSpecialDefense = some p.base.SpecialDefense ∧
        parseStatCreate input.baseSpeed = some p.base.Speed) ∧
    parseStatCreate none = some 0 ∧
    parseStatCreate (some "") = some 0 ∧
    (∀ s, s ≠ "" → parseStatCreate (some s) = jsParseInt s) ∧
    (parseStatCreate input.baseHP = none → (postPokemons input st).1 = .clientError) := by
  refine ⟨?_, rfl, by decide, ?_, ?_⟩
  · intro p h
    obtain ⟨hdoc, -, -, -⟩ := postPokemons_created_eq input st p h
    have he := docToPokemon_eq _ _ hdoc
    exact ⟨by simpa [mkDoc] using he.2.2.2.1, by simpa [mkDoc] using he.2.2.2.2.1,
           by simpa [mkDoc] using he.2.2.2.2.2.1, by simpa [mkDoc] using he.2.2.2.2.2.2.1,
           by simpa [mkDoc] using he.2.2.2.2.2.2.2.1, by simpa [mkDoc] using he.2.2.2.2.2.2.2.2.1⟩
  · intro s hs
    simp [parseStatCreate, hs]
  · intro hnan
    cases hf : input.file with
    | some f =>
      have hd := docToPokemon_none_HP
        (mkDoc input (nextId st.store) (imageUrlBase ++ (toString (nextId st.store) ++ extname f.origName)))
        (by simp [mkDoc, hnan])
      simp only [postPokemons, hf, multerSave, hd]
    | none =>
      have hd := docToPokemon_none_HP (mkDoc input (nextId st.store) defaultImage)
        (by simp [mkDoc, hnan])
      simp only [postPokemons, hf, multerSave, hd]

/-- Witness for C4 (amended): an unparsable HP field makes the create
fail with 400. -/
theorem create_basestats_amended_witness :
    (postPokemons (nameHpCreate "Pika" "abc") { store := [], fs := [] }).1 = .clientError :=
  (create_basestats_amended (nameHpCreate "Pika" "abc") { store := [], fs := [] }).2.2.2.2 (by decide)

/-- C4 counterexample: the form value `-5` for `base.HP` is persisted as
a negative stat, and an unparsable value parses to `NaN`, not 0 — the
claim's non-negativity and zero-default both fail on the code. -/
theorem create_basestats_counterexample :
    (postPokemons (nameHpCreate "Pika" "-5") { store := [], fs := [] }).1 = .created createdPikaNeg ∧
    createdPikaNeg.base.HP < 0 ∧
    parseStatCreate (some "abc") ≠ some 0 := by decide

theorem putPokemons_found (input : UpdateInput) (pokeId : Int) (st : ServerState) (p : Pokemon)
    (hf : input.file = none) (hcast : updatesCastOk (buildUpdates input) = true)
    (hfind : st.store.find? (fun q => q.id == pokeId) = some p) :
    putPokemons input pokeId st =
      (.ok (applyUpdateSet (buildUpdates input) p),
       { st with store := replaceFirstById pokeId (applyUpdateSet (buildUpdates input) p) st.store }) := by
  simp only [putPokemons, hf, multerSave, hcast, hfind, if_true]

theorem applyUpdateSet_hpOnly (raw : String) (v : Int) (p : Pokemon)
    (hraw : raw ≠ "") (hparse : jsParseInt raw = some v) :
    applyUpdateSet (buildUpdates (hpOnly (some raw))) p =
      { p with base := { p.base with HP := v } } := by
  obtain ⟨pid, ⟨pname⟩, ptype, ⟨s1, s2, s3, s4, s5, s6⟩, pimg⟩ := p
  simp [applyUpdateSet, buildUpdates, hpOnly, truthy, hraw, hparse]

theorem applyUpdateSet_hpOnly_skip (v : Option String) (p : Pokemon)
    (hv : truthy v = none) :
    applyUpdateSet (buildUpdates (hpOnly v)) p = p := by
  obtain ⟨pid, ⟨pname⟩, ptype, ⟨s1, s2, s3, s4, s5, s6⟩, pimg⟩ := p
  simp [applyUpdateSet, buildUpdates, hpOnly, hv, truthy_none]

theorem updatesCastOk_hpOnly (raw : String) (v : Int)
    (hraw : raw ≠ "") (hparse : jsParseInt raw = some v) :
    updatesCastOk (buildUpdates (hpOnly (some raw))) = true := by
  simp [updatesCastOk, buildUpdates, hpOnly, truthy, hraw, hparse]

theorem updatesCastOk_hpOnly_skip (v : Option String) (hv : truthy v = none) :
    updatesCastOk (buildUpdates (hpOnly v)) = true := by
  simp [updatesCastOk, buildUpdates, hpOnly, hv, truthy_none]

/-- C6: an update request whose only form field is `base.HP` (and no
uploaded file) rewrites exactly the found record's HP stat; identity,
name, types, image, the other five stats and the filesystem are
untouched. -/
theorem update_hp_frame (st : ServerState) (pokeId : Int) (p : Pokemon) (raw : String) (v : Int)
    (hfind : st.store.find? (fun q => q.id == pokeId) = some p)
    (hraw : raw ≠ "") (hparse : jsParseInt raw = some v) :
    putPokemons (hpOnly (some raw)) pokeId st =
      (.ok { p with base := { p.base with HP := v } },
       { st with store := replaceFirstById pokeId { p with base := { p.base with HP := v } } st.store }) ∧
    ({ p with base := { p.base with HP := v } } : Pokemon).id = p.id ∧
    ({ p with base := { p.base with HP := v } } : Pokemon).name = p.name ∧
    ({ p with base := { p.base with HP := v } } : Pokemon).type = p.type ∧
    ({ p with base := { p.base with HP := v } } : Pokemon).image = p.image ∧
    ({ p with base := { p.base with HP := v } } : Pokemon).base.Attack = p.base.Attack ∧
    ({ p with base := { p.base with HP := v } } : Pokemon).base.Defense = p.base.Defense ∧
    ({ p with base := { p.base with HP := v } } : Pokemon).base.SpecialAttack = p.base.SpecialAttack ∧
    ({ p with base := { p.base with HP := v } } : Pokemon).base.SpecialDefense = p.base.SpecialDefense ∧
    ({ p with base := { p.base with HP := v } } : Pokemon).base.Speed = p.base.Speed ∧
    ({ p with base := { p.base with HP := v } } : Pokemon).base.HP = v ∧
    (putPokemons (hpOnly (some raw)) pokeId st).2.fs = st.fs := by
  have hmain := putPokemons_found (hpOnly (some raw)) pokeId st p rfl
    (updatesCastOk_hpOnly raw v hraw hparse) hfind
  rw [applyUpdateSet_hpOnly raw v p hraw hparse] at hmain
  exact ⟨hmain, rfl, rfl, rfl, rfl, rfl, rfl, rfl, rfl, rfl, rfl, by rw [hmain]⟩

/-- Witness for C6 at a concrete store: updating HP to 42 on `pika`. -/
theorem update_hp_frame_witness :
    putPokemons (hpOnly (some "42")) 1 pikaSt =
      (.ok { pika with base := { pika.base with HP := 42 } },
       { pikaSt with store := replaceFirstById 1 { pika with base := { pika.base with HP := 42 } } pikaSt.store }) ∧
    ({ pika with base := { pika.base with HP := 42 } } : Pokemon).id = pika.id ∧
    ({ pika with base := { pika.base with HP := 42 } } : Pokemon).name = pika.name ∧
    ({ pika with base := { pika.base with HP := 42 } } : Pokemon).type = pika.type ∧
    ({ pika with base := { pika.base with HP := 42 } } : Pokemon).image = pika.image ∧
    ({ pika with base := { pika.base with HP := 42 } } : Pokemon).base.Attack = pika.base.Attack ∧
    ({ pika with base := { pika.base with HP := 42 } } : Pokemon).base.Defense = pika.base.Defense ∧
    ({ pika with base := { pika.base with HP := 42 } } : Pokemon).base.SpecialAttack = pika.base.SpecialAttack ∧
    ({ pika with base := { pika.base with HP := 42 } } : Pokemon).base.SpecialDefense = pika.base.SpecialDefense ∧
    ({ pika with base := { pika.base with HP := 42 } } : Pokemon).base.Speed = pika.base.Speed ∧
    ({ pika with base := { pika.base with HP := 42 } } : Pokemon).base.HP = 42 ∧
    (putPokemons (hpOnly (some "42")) 1 pikaSt).2.fs = pikaSt.fs :=
  update_hp_frame pikaSt 1 pika "42" 42 (by decide) (by decide) (by decide)

/-- C5 (amended): a numeric subfield enters the update set iff its raw
form value is a non-empty string — JS truthiness is applied to the raw
string, not to the parsed number. Since `"0"` is a non-empty string and
parses to 0, an update CAN set an existing stat to 0; only an absent or
empty-string field leaves the stat unchanged. -/
theorem update_truthiness_amended (st : ServerState) (pokeId : Int) (p : Pokemon)
    (hfind : st.store.find? (fun q => q.id == pokeId) = some p) :
    (putPokemons (hpOnly (some "0")) pokeId st).1 =
      .ok { p with base := { p.base with HP := 0 } } ∧
    (∀ raw, raw ≠ "" → jsParseInt raw = some 0 →
      (putPokemons (hpOnly (some raw)) pokeId st).1 =
        .ok { p with base := { p.base with HP := 0 } }) ∧
    (putPokemons (hpOnly none) pokeId st).1 = .ok p ∧
    (putPokemons (hpOnly (some "")) pokeId st).1 = .ok p := by
  have hzero : ∀ raw, raw ≠ "" → jsParseInt raw = some 0 →
      (putPokemons (hpOnly (some raw)) pokeId st).1 =
        .ok { p with base := { p.base with HP := 0 } } := by
    intro raw hraw hparse
    have hmain := putPokemons_found (hpOnly (some raw)) pokeId st p rfl
      (updatesCastOk_hpOnly raw 0 hraw hparse) hfind
    rw [applyUpdateSet_hpOnly raw 0 p hraw hparse] at hmain
    rw [hmain]
  have hskip : ∀ v, truthy v = none → (putPokemons (hpOnly v) pokeId st).1 = .ok p := by
    intro v hv
    have hmain := putPokemons_found (hpOnly v) pokeId st p rfl
      (updatesCastOk_hpOnly_skip v hv) hfind
    rw [applyUpdateSet_hpOnly_skip v p hv] at hmain
    rw [hmain]
  exact ⟨hzero ("0") (by decide) (by decide), hzero, hskip none rfl, hskip (some "") (by decide)⟩

/-- Witness for C5 (amended): on the concrete store, the `"0"` update
really lands as HP = 0. -/
theorem update_truthiness_amended_witness :
    (putPokemons (hpOnly (some "0")) 1 pikaSt).1 =
      .ok { pika with base := { pika.base with HP := 0 } } :=
  (update_truthiness_amended pikaSt 1 pika (by decide)).1

/-- C5 counterexample: the stored HP is 35; the update request whose
`base.HP` form value is the string `"0"` (truthy in JS) is included with
parsed value 0 and sets the stat to 0, contrary to the claim that a
subfield is included only when its parsed value is truthy. -/
theorem update_truthiness_counterexample :
    pika.base.HP = 35 ∧
    (putPokemons (hpOnly (some "0")) 1 pikaSt).1 =
      .ok { id := 1, name := { french := "Pikachu" }, type := ["Electrik"],
            base := { HP := 0, Attack := 55, Defense := 40, SpecialAttack := 50,
                      SpecialDefense := 50, Speed := 90 },
            image := defaultImage } := by decide

/-- C10: an update with an uploaded file on an identity absent from the
store still renames the upload into the asset store under
`<identity><ext>` before the existence check — the 404 comes back with
the filesystem already mutated, the store untouched. -/
theorem update_notfound_file_moved (input : UpdateInput) (pokeId : Int) (st : ServerState)
    (f : UploadedFile) (hf : input.file = some f)
    (hcast : updatesCastOk (buildUpdates input) = true)
    (hfind : st.store.find? (fun q => q.id == pokeId) = none) :
    (putPokemons input pokeId st).1 = .notFound ∧
    (toString pokeId ++ extname f.origName) ∈ (putPokemons input pokeId st).2.fs ∧
    (putPokemons input pokeId st).2.store = st.store := by
  have hcast2 : updatesCastOk
      { buildUpdates input with
        image := some (imageUrlBase ++ (toString pokeId ++ extname f.origName)) } = true := by
    rw [← hcast]
    rfl
  simp only [putPokemons, hf, multerSave, hcast2, hfind, if_true]
  exact ⟨trivial, mem_fsAdd _ _, trivial⟩

/-- Witness for C10: updating the missing identity 7 with an upload
moves `7.jpg` into the asset directory and returns 404. -/
theorem update_notfound_file_moved_witness :
    (putPokemons (fileOnlyUpdate { tempName := "temp_9.jpg", origName := "me.jpg" }) 7 pikaSt).1 =
      .notFound ∧
    (toString (7 : Int) ++ extname ("me.jpg")) ∈
      (putPokemons (fileOnlyUpdate { tempName := "temp_9.jpg", origName := "me.jpg" }) 7 pikaSt).2.fs ∧
    (putPokemons (fileOnlyUpdate { tempName := "temp_9.jpg", origName := "me.jpg" }) 7 pikaSt).2.store =
      pikaSt.store :=
  update_notfound_file_moved (fileOnlyUpdate { tempName := "temp_9.jpg", origName := "me.jpg" })
    7 pikaSt { tempName := "temp_9.jpg", origName := "me.jpg" } rfl (by decide) (by decide)

/-- C2 (amended): deleting a found record whose image URL contains the
local asset marker removes the derived filename from the asset
directory — a no-op when the file is already absent — and the default
placeholder URL also contains the marker, deriving `default.png`; only
a record whose image lacks the marker leaves the filesystem untouched. -/
theorem delete_asset_amended (st : ServerState) (pokeId : Int) (p : Pokemon)
    (hfind : st.store.find? (fun q => q.id == pokeId) = some p) :
    (∀ filename, splitSecond p.image assetMarker = some filename →
        deletePokemons pokeId st =
          (.ok, { store := removeFirstById pokeId st.store, fs := fsRemove st.fs filename })) ∧
    (splitSecond p.image assetMarker = none →
        deletePokemons pokeId st = (.ok, { store := removeFirstById pokeId st.store, fs := st.fs })) ∧
    splitSecond defaultImage assetMarker = some ("default.png") ∧
    (∀ filename, filename ∉ fsRemove st.fs filename) ∧
    (∀ filename, filename ∉ st.fs → fsRemove st.fs filename = st.fs) := by
  refine ⟨?_, ?_, by decide, fun filename => not_mem_fsRemove st.fs filename, ?_⟩
  · intro filename hsp
    simp only [deletePokemons, hfind, hsp]
  · intro hsp
    simp only [deletePokemons, hfind, hsp]
  · intro filename hab
    apply List.filter_eq_self.mpr
    intro a ha
    simp only [decide_eq_true_eq]
    intro heq
    exact hab (heq ▸ ha)

/-- Witness for C2 (amended): deleting `pika` (placeholder image) with
`default.png` present removes exactly that file. -/
theorem delete_asset_amended_witness :
    deletePokemons 1 { store := [pika], fs := ["default.png"] } =
      (.ok, { store := removeFirstById 1 [pika],
              fs := fsRemove ["default.png"] ("default.png") }) :=
  (delete_asset_amended { store := [pika], fs := ["default.png"] } 1 pika (by decide)).1
    ("default.png") (by decide)

/-- C2 counterexample: `pika`'s image is the default placeholder; its
URL contains `/assets/pokemons/`, so the delete handler derives
`default.png` and unlinks it — the filesystem is not left untouched. -/
theorem delete_placeholder_counterexample :
    pika.image = defaultImage ∧
    deletePokemons 1 { store := [pika], fs := ["default.png"] } =
      (.ok, { store := [], fs := [] }) := by decide

theorem patMatchAt_noDot (pat : List Char) (hd : ('.') ∉ pat) :
    ∀ s, patMatchAt pat s = substrAt pat s := by
  induction pat with
  | nil => intro s; rfl
  | cons p ps ih =>
    intro s
    have hp : p ≠ '.' := fun h => hd (h ▸ List.mem_cons_self p ps)
    have hps : ('.') ∉ ps := fun h => hd (List.mem_cons_of_mem p h)
    cases s with
    | nil => rfl
    | cons c cs =>
      simp only [patMatchAt, substrAt, ih hps]
      have hb : (p == '.') = false := by simpa using hp
      rw [hb, Bool.false_or]

theorem patMatchIn_noDot (pat : List Char) (hd : ('.') ∉ pat) :
    ∀ s, patMatchIn pat s = substrIn pat s := by
  intro s
  induction s with
  | nil => simp only [patMatchIn, substrIn, patMatchAt_noDot pat hd]
  | cons c cs ih => simp only [patMatchIn, substrIn, patMatchAt_noDot pat hd, ih]

theorem regexMatchCI_noMeta (q s : String) (h : noMeta q = true) :
    regexMatchCI q s = containsCI s q := by
  have hd : ('.') ∉ q.data := by
    intro hmem
    have := List.all_eq_true.mp h '.' hmem
    simp only [decide_eq_true_eq] at this
    exact this (by decide)
  exact patMatchIn_noDot q.data hd s.data

/-- C3 (amended): a blank (empty or whitespace-only) or absent query
returns the empty list regardless of store contents; a non-blank query
is passed to the store as a case-insensitive regular expression, which
coincides with case-insensitive substring containment exactly for
queries free of regex metacharacters — a metacharacter query such as
`"."` matches records whose name does not contain it literally. -/
theorem search_amended (q : String) (store : List Pokemon) :
    (jsTrim q = "" → searchPokemons (some q) store = []) ∧
    searchPokemons none store = [] ∧
    (jsTrim q ≠ "" → noMeta q = true →
      searchPokemons (some q) store = store.filter (fun p => containsCI p.name.french q)) := by
  refine ⟨?_, rfl, ?_⟩
  · intro h
    simp [searchPokemons, h]
  · intro h hq
    simp only [searchPokemons, Option.getD_some]
    rw [if_neg h]
    congr 1
    funext p
    exact regexMatchCI_noMeta q p.name.french hq

/-- Witness for C3 (amended): the metacharacter-free query `kac` returns
exactly the substring matches. -/
theorem search_amended_witness :
    searchPokemons (some "kac") [pika] =
      List.filter (fun p => containsCI p.name.french ("kac")) [pika] :=
  (search_amended "kac" [pika]).2.2 (by decide) (by decide)

/-- C3 counterexample: the non-blank query `"."` is matched as a regular
expression — it returns `pika` although `Pikachu` does not contain `"."`
as a substring, so the result set is not the substring-match set. -/
theorem search_regex_counterexample :
    searchPokemons (some ".") [pika] = [pika] ∧
    containsCI (pika.name.french) "." = false := by decide

/-- C9: pagination — page size fixed at 20, `skip = (page - 1) * 20`,
`page` defaulting to 1 on absent or non-numeric input; on 25 records
page 1 returns 20 items with `totalPages = 2`, page 2 the remaining 5,
page 3 an empty `data` with no error. -/
theorem list_pagination (store : List Pokemon) (h : store.length = 25) :
    (∀ s, jsParseInt s = none → listPokemons (some s) store = listPokemons none store) ∧
    (∀ s n, jsParseInt s = some n → 1 ≤ n →
        listPokemons (some s) store =
          .ok { page := n, totalPages := 2, data := (store.drop ((n - 1) * 20).toNat).take 20 }) ∧
    listPokemons none store = .ok { page := 1, totalPages := 2, data := store.take 20 } ∧
    listPokemons (some "1") store = .ok { page := 1, totalPages := 2, data := store.take 20 } ∧
    (store.take 20).length = 20 ∧
    listPokemons (some "2") store = .ok { page := 2, totalPages := 2, data := store.drop 20 } ∧
    (store.drop 20).length = 5 ∧
    listPokemons (some "3") store = .ok { page := 3, totalPages := 2, data := [] } := by
  have htp : (store.length + 19) / 20 = 2 := by rw [h]
  have hgen : ∀ s n, jsParseInt s = some n → 1 ≤ n →
      listPokemons (some s) store =
        .ok { page := n, totalPages := 2, data := (store.drop ((n - 1) * 20).toNat).take 20 } := by
    intro s n hs hn
    have hn0 : ¬ n = 0 := by omega
    have hskip : ¬ ((n - 1) * 20 < 0) := by
      have h1 : (0 : Int) ≤ n - 1 := by omega
      have h2 : (0 : Int) ≤ (n - 1) * 20 := by positivity
      omega
    simp only [listPokemons, pageOf, Option.some_bind, hs, if_neg hn0, if_neg hskip, htp]
  have hdef : listPokemons none store = .ok { page := 1, totalPages := 2, data := store.take 20 } := by
    simp only [listPokemons, pageOf, Option.none_bind, htp]
    norm_num
  have hd5 : (store.drop 20).length = 5 := by
    rw [List.length_drop, h]
  refine ⟨?_, hgen, hdef, ?_, ?_, ?_, hd5, ?_⟩
  · intro s hs
    rw [hdef]
    simp only [listPokemons, pageOf, Option.some_bind, hs, htp]
    norm_num
  · rw [hgen ("1") 1 (by decide) (by decide)]
    norm_num
  · rw [List.length_take, h]
    decide
  · rw [hgen ("2") 2 (by decide) (by decide)]
    have : (((2 : Int) - 1) * 20).toNat = 20 := by decide
    rw [this, List.take_of_length_le (by omega : (store.drop 20).length ≤ 20)]
  · rw [hgen ("3") 3 (by decide) (by decide)]
    have h40 : (((3 : Int) - 1) * 20).toNat = 40 := by decide
    rw [h40, List.drop_eq_nil_of_le (by omega : store.length ≤ 40)]
    simp

/-- Witness for C9: a concrete store of 25 records; page 3 is an empty
page without error. -/
theorem list_pagination_witness :
    listPokemons (some "3") ex25 = .ok { page := 3, totalPages := 2, data := [] } :=
  (list_pagination ex25 (by simp [ex25])).2.2.2.2.2.2.2

end PokeApi
